import Mathlib

/-!
Verification of the jit-vcs repository-initialization core
(`src/internal/initialize.go`, constants from `src/pkg/util/constants.go`).

The filesystem is modelled as a flat association list from paths (component
lists) to entries, together with an operation counter (`clock`).  An
environment supplies the OS-dependent outcomes: a transient-failure oracle
`fail` (indexed by the clock, so one syscall can fail while a later one on
the same path succeeds), a static directory-writability predicate `W`
(standing in for the OS permission check that `os.CreateTemp` probes and
that entry creation inside a directory is subject to), and the process
working directory `cwd` (what `os.Getwd` reports).

Open file descriptors carry their path and their access mode.  Go's
`os.OpenFile` derives the access mode from the flag word: a flag set that
contains neither `O_WRONLY` (0x1) nor `O_RDWR` (0x2) yields `O_RDONLY`, and
`write(2)` on such a descriptor fails with `EBADF`.  This is modelled by the
`writable` field of a descriptor and is load-bearing for the config-file
analysis below.
-/

set_option autoImplicit false

namespace Jit

/-! ### Constants (`pkg/util/constants.go`) -/

def JitDirName : String := ".jit"

def MAIN : String := "main"
def HEAD : String := "head"
def STAGE : String := "stage"
def CONFIG : String := "config"
def LOGS : String := "logs"
def INFO : String := "info"
def BRANCHES : String := "branches"
def SNAPSHOTS : String := "snapshots"
def OBJECTS : String := "objects"

/-- `util.DefaultFilePerm = 0644`. -/
def DefaultFilePerm : Nat := 0o644

/-- `util.File` with its two constants `util.DataFile` and `util.Directory`. -/
inductive File where
  | dataFile
  | directory
deriving DecidableEq, Repr

/-- `jitFileSystem` from `internal/initialize.go`.  The Go value is a map and
its iteration order is unspecified; this list fixes the source-literal order
as one realizable iteration order. -/
def jitFileSystem : List (String × File) :=
  [(MAIN, .dataFile), (HEAD, .dataFile), (STAGE, .dataFile), (CONFIG, .dataFile),
   (LOGS, .directory), (INFO, .directory), (BRANCHES, .directory), (SNAPSHOTS, .directory),
   (OBJECTS, .directory)]

/-! ### Filesystem model -/

/-- A path, as its list of components (an absolute path without the leading
separator). -/
abbrev Path := List String

/-- The string Go's `filepath.Join` would produce for a component list,
rendered as an absolute path. -/
def pathStr (p : Path) : String := "/" ++ String.intercalate "/" p

/-- `filepath.Join p s`: joining an empty component is the identity (Go's
`Join` drops empty elements). -/
def joinComp (p : Path) (s : String) : Path := if s = "" then p else p ++ [s]

/-- One filesystem object. Modes are the permission bits the object was
created with. -/
inductive Entry where
  | file (content : String) (mode : Nat)
  | dir (mode : Nat)
  | symlink (target : Path)
deriving DecidableEq, Repr

/-- The error taxonomy of the initialization core (spec §7).  Constructors
carry the path they were raised for where the code records one. -/
inductive JitError where
  | notFound (p : Path)
  | notADirectory (p : Path)
  | permissionDenied (p : Path)
  | alreadyInitialized (p : Path)
  | insufficientPrivilege
  | ioError
  | invalidArgument
deriving DecidableEq, Repr

/-- Filesystem state: a flat association list of entries (later bindings
shadow earlier ones) plus an operation counter used to index the
transient-failure oracle. -/
structure FS where
  entries : List (Path × Entry)
  clock : Nat
deriving DecidableEq, Repr

/-- The OS environment of one run. -/
structure Env where
  /-- `fail n p` : the n-th syscall of the run fails at path `p`
  (transient I/O failure, full disk, ...). -/
  fail : Nat → Path → Bool
  /-- `W p` : the process may create entries inside directory `p`. -/
  W : Path → Bool
  /-- what `os.Getwd` returns. -/
  cwd : Path

def lookupEntries : List (Path × Entry) → Path → Option Entry
  | [], _ => none
  | (k, v) :: rest, p => if k = p then some v else lookupEntries rest p

def FS.lookup (fs : FS) (p : Path) : Option Entry := lookupEntries fs.entries p

def FS.insert (fs : FS) (p : Path) (e : Entry) : FS := ⟨(p, e) :: fs.entries, fs.clock⟩

def FS.tick (fs : FS) : FS := ⟨fs.entries, fs.clock + 1⟩

/-- `p` denotes a directory: either the filesystem root `[]` or a `dir`
entry. -/
def FS.isDirAt (fs : FS) (p : Path) : Bool :=
  p.isEmpty ||
    match fs.lookup p with
    | some (.dir _) => true
    | _ => false

/-! ### OS primitives

Each primitive consumes one clock tick and consults the failure oracle at
its target path.  They are shallow embeddings of the `os.*` calls the Go
code makes, at the granularity the code observes. -/

/-- `os.Mkdir p mode`: fails on a transient error, if `p` already exists
(`EEXIST`), or if the parent is not an existing, writable directory. -/
def osMkdir (env : Env) (fs : FS) (p : Path) (mode : Nat) : FS × Option JitError :=
  if env.fail fs.clock p then (fs.tick, some .ioError)
  else
    match fs.lookup p with
    | some _ => (fs.tick, some .ioError)
    | none =>
      if fs.isDirAt p.dropLast && env.W p.dropLast then
        ((fs.insert p (.dir mode)).tick, none)
      else (fs.tick, some (.notFound p.dropLast))

/-- An open descriptor: the path it refers to and whether its access mode
permits writing. -/
structure Fd where
  path : Path
  writable : Bool
deriving DecidableEq, Repr

/-- `os.OpenFile p flags perm`.  `writable` is whether the flag word
contains `O_WRONLY` or `O_RDWR`; `create`/`trunc` are `O_CREATE`/`O_TRUNC`.
Opening an existing directory with `O_CREAT` set fails with `EISDIR`; the
runs considered never open a symlink, which is conservatively an error. -/
def osOpenFile (env : Env) (fs : FS) (p : Path) (writable create trunc : Bool)
    (perm : Nat) : FS × Except JitError Fd :=
  if env.fail fs.clock p then (fs.tick, .error .ioError)
  else
    match fs.lookup p with
    | some (.dir _) => (fs.tick, .error .ioError)
    | some (.symlink _) => (fs.tick, .error .ioError)
    | some (.file _ m) =>
      if trunc then ((fs.insert p (.file "" m)).tick, .ok ⟨p, writable⟩)
      else (fs.tick, .ok ⟨p, writable⟩)
    | none =>
      if create then
        if fs.isDirAt p.dropLast && env.W p.dropLast then
          ((fs.insert p (.file "" perm)).tick, .ok ⟨p, writable⟩)
        else (fs.tick, .error (.notFound p.dropLast))
      else (fs.tick, .error (.notFound p))

/-- `os.Create p` = `OpenFile(p, O_RDWR|O_CREATE|O_TRUNC, 0666)`. -/
def osCreate (env : Env) (fs : FS) (p : Path) : FS × Except JitError Fd :=
  osOpenFile env fs p true true true 0o666

/-- `File.Write` / `File.WriteString` on an open descriptor.  A descriptor
whose access mode is read-only fails with `EBADF` before touching the
file. -/
def fdWrite (env : Env) (fs : FS) (fd : Fd) (s : String) : FS × Option JitError :=
  if !fd.writable then (fs.tick, some .ioError)
  else if env.fail fs.clock fd.path then (fs.tick, some .ioError)
  else
    match fs.lookup fd.path with
    | some (.file c m) => ((fs.insert fd.path (.file (c ++ s) m)).tick, none)
    | _ => (fs.tick, some .ioError)

/-- `os.Symlink target p` (the new link is created at `p`). -/
def osSymlink (env : Env) (fs : FS) (target p : Path) : FS × Option JitError :=
  if env.fail fs.clock p then (fs.tick, some .ioError)
  else
    match fs.lookup p with
    | some _ => (fs.tick, some .ioError)
    | none =>
      if fs.isDirAt p.dropLast && env.W p.dropLast then
        ((fs.insert p (.symlink target)).tick, none)
      else (fs.tick, some .ioError)

/-- The recursion of `os.MkdirAll`, structural on a fuel argument (the
fuel only bounds the recursion depth; `osMkdirAll` below always supplies
enough of it, so the fuel-exhausted base case is unreachable). -/
def osMkdirAllGo (env : Env) (mode : Nat) : Nat → FS → Path → FS × Option JitError
  | 0, fs, _ => (fs.tick, some .ioError)
  | fuel + 1, fs, p =>
    match fs.lookup p with
    | some (.dir _) => (fs.tick, none)
    | some _ => (fs.tick, some .ioError)
    | none =>
      if p = [] then (fs.tick, some .ioError)
      else
        match osMkdirAllGo env mode fuel fs p.dropLast with
        | (fs', some e) => (fs', some e)
        | (fs', none) =>
          if env.fail fs'.clock p then (fs'.tick, some .ioError)
          else if fs'.isDirAt p.dropLast && env.W p.dropLast then
            ((fs'.insert p (.dir mode)).tick, none)
          else (fs'.tick, some .ioError)

/-- `os.MkdirAll p mode`: an existing directory is accepted as-is; an
existing non-directory is an error; otherwise the parent chain is created
first (stopping at the deepest existing ancestor, as Go's `MkdirAll`
does) and then `p` itself. -/
def osMkdirAll (env : Env) (fs : FS) (p : Path) (mode : Nat) : FS × Option JitError :=
  osMkdirAllGo env mode (p.length + 1) fs p

/-! ### The Go functions of `internal/initialize.go` -/

/-- `ValidateDirPath` : `os.Stat` then `IsDir`.  `Stat` follows one level of
symlink. -/
def ValidateDirPath (fs : FS) (p : Path) : Option JitError :=
  match fs.lookup p with
  | none => some (.notFound p)
  | some (.dir _) => none
  | some (.file _ _) => some (.notADirectory p)
  | some (.symlink t) =>
    match fs.lookup t with
    | some (.dir _) => none
    | some _ => some (.notADirectory p)
    | none => some (.notFound p)

/-- `CheckWritePermission` : probes writability by creating and removing a
temporary file; the probe's net effect on the entries is nil, so it is
modelled as the pure check of the writability oracle. -/
def CheckWritePermission (env : Env) (fs : FS) (p : Path) : Option JitError :=
  if fs.isDirAt p && env.W p then none else some (.permissionDenied p)

/-- `GetJitRootDir` : a non-empty path is validated and checked for write
permission and returned unchanged; the empty path resolves to the process
working directory (`os.Getwd`, modelled as never failing). -/
def GetJitRootDir (env : Env) (fs : FS) (dirPath : Path) : Except JitError Path :=
  if dirPath ≠ [] then
    match ValidateDirPath fs dirPath with
    | some e => .error e
    | none =>
      match CheckWritePermission env fs dirPath with
      | some e => .error e
      | none => .ok dirPath
  else .ok env.cwd

/-- The `for k, v := range jitFileSystem` loop body of `CreateJitDir`:
files via `os.Create`, directories via `os.MkdirAll(..., util.DefaultFilePerm)`.
A creation (or close) failure is logged and `break`s the loop; no error is
propagated.  `File.Close` on a freshly created file is modelled as never
failing. -/
def scaffoldEntries (env : Env) (fs : FS) (root : Path) : List (String × File) → FS
  | [] => fs
  | (k, kind) :: rest =>
    match kind with
    | .dataFile =>
      match osCreate env fs (root ++ [k]) with
      | (fs', .ok _) => scaffoldEntries env fs' root rest
      | (fs', .error _) => fs'
    | .directory =>
      match osMkdirAll env fs (root ++ [k]) DefaultFilePerm with
      | (fs', none) => scaffoldEntries env fs' root rest
      | (fs', some _) => fs'

/-- `CreateJitDir(wkDir, sepDir, bare, filePermission)`.  When neither a
separate directory nor bare, the `.jit` guard directory is created first
with the given permission and any `os.Mkdir` failure is reported as the
"already contains a jit repository" error; then the layout loop runs (its
failures are logged-and-`break` only) and `(true, nil)` is returned. -/
def CreateJitDir (env : Env) (fs : FS) (wkDir : Path) (sepDir bare : Bool)
    (filePermission : Nat) : FS × Bool × Option JitError :=
  if !sepDir && !bare then
    match osMkdir env fs (wkDir ++ [JitDirName]) filePermission with
    | (fs', some _) => (fs', false, some (.alreadyInitialized wkDir))
    | (fs', none) => (scaffoldEntries env fs' (wkDir ++ [JitDirName]) jitFileSystem, true, none)
  else (scaffoldEntries env fs wkDir jitFileSystem, true, none)

/-- The write loop of `WriteToConfigFile`: each entry is written as
`KEY=VALUE\n`; an individual write failure is logged and the loop
continues. -/
def writeConfigEntries (env : Env) (fs : FS) (fd : Fd) : List (String × String) → FS
  | [] => fs
  | (k, v) :: rest =>
    writeConfigEntries env (fdWrite env fs fd (k ++ "=" ++ v ++ "\n")).1 fd rest

/-- `WriteToConfigFile(config, jitDir)` : opens `<jitDir>/config` with
`os.O_APPEND|os.O_CREATE` and permission `util.DefaultFilePerm`.  That flag
word contains neither `O_WRONLY` nor `O_RDWR`, so the access mode is
`O_RDONLY`: the descriptor is opened read-only (`writable := false`).  An
open failure is returned; write failures are only logged. -/
def WriteToConfigFile (env : Env) (fs : FS) (config : List (String × String))
    (jitDir : Path) : FS × Bool × Option JitError :=
  match osOpenFile env fs (jitDir ++ [CONFIG]) false true false DefaultFilePerm with
  | (fs', .error e) => (fs', false, some e)
  | (fs', .ok fd) => (writeConfigEntries env fs' fd config, true, none)

/-- `SetUpInitialBranch(jitDir, initialBranch)` : creates (append-mode,
tolerating pre-existence) `branches/<initialBranch>`, then opens `head`
with `O_RDWR|O_CREATE|O_TRUNC` and writes the branch file's path
(`bf.Name()`, the string handed to `OpenFile`) as its entire content. -/
def SetUpInitialBranch (env : Env) (fs : FS) (jitDir : Path) (initialBranch : String) :
    FS × Bool × Option JitError :=
  let branchPath := joinComp (jitDir ++ [BRANCHES]) initialBranch
  match osOpenFile env fs branchPath false true false DefaultFilePerm with
  | (fs₁, .error e) => (fs₁, false, some e)
  | (fs₁, .ok _) =>
    match osOpenFile env fs₁ (jitDir ++ [HEAD]) true true true DefaultFilePerm with
    | (fs₂, .error e) => (fs₂, false, some e)
    | (fs₂, .ok hf) =>
      match fdWrite env fs₂ hf (pathStr branchPath) with
      | (fs₃, some e) => (fs₃, false, some e)
      | (fs₃, none) => (fs₃, true, none)

/-- `ConstructFinalJitDir(wkDir, sepDir, bare)` (the spec's `planRoot`). -/
def ConstructFinalJitDir (wkDir sepDir : Path) (bare : Bool) : Path :=
  if sepDir ≠ [] then sepDir
  else if bare then wkDir
  else wkDir ++ [JitDirName]

/-- One octal digit, as `strconv.ParseUint` with base 8 accepts it. -/
def octalDigit (c : Char) : Option Nat :=
  if '0' ≤ c ∧ c ≤ '7' then some (c.toNat - 48) else none

def parseOctalCore : List Char → Nat → Option Nat
  | [], acc => some acc
  | c :: cs, acc =>
    match octalDigit c with
    | some d => parseOctalCore cs (acc * 8 + d)
    | none => none

/-- `strconv.ParseUint(s, 8, 32)` : a non-empty string of octal digits whose
value fits in 32 bits; anything else is an error (`none`). -/
def parseOctal (s : String) : Option Nat :=
  if s = "" then none
  else
    match parseOctalCore s.data 0 with
    | some v => if v < 2 ^ 32 then some v else none
    | none => none

/-- The typed option bundle the orchestrator extracts from its
`map[string]any` argument. -/
structure Options where
  quiet : Bool
  bare : Bool
  separateJitDir : Path
  template : String
  objectFormat : String
  initialBranch : String
  perm : String

/-- The config map literal of `InitializeJitRepository` (a Go map; literal
order fixed as the representative iteration order). -/
def configEntries (opts : Options) : List (String × String) :=
  [("TEMPLATE", opts.template), ("OBJECT-FORMAT", opts.objectFormat),
   ("INITIAL-BRANCH", opts.initialBranch)]

/-- `InitializeJitRepository(options, dir)`, transcribed from the Go control
flow: permission parsing with silent fallback to `0755`; resolution of the
separate directory (when requested) and of the working directory; the
symlink and scaffold; the config write whose error is only logged
(`log.Println(writeErr)`); the initial-branch setup whose error aborts. -/
def InitializeJitRepository (env : Env) (fs : FS) (opts : Options) (dir : Path) :
    FS × Bool × Option JitError :=
  let filePermission := (parseOctal opts.perm).getD 0o755
  let sepRes : Except JitError Path :=
    if opts.separateJitDir ≠ [] then GetJitRootDir env fs opts.separateJitDir else .ok []
  match sepRes with
  | .error e => (fs, false, some e)
  | .ok sepDir =>
    match GetJitRootDir env fs dir with
    | .error e => (fs, false, some e)
    | .ok workingDir =>
      let scafRes : FS × Option JitError :=
        if opts.separateJitDir ≠ [] then
          match osSymlink env fs sepDir (workingDir ++ [JitDirName]) with
          | (fs₁, some _) => (fs₁, some .insufficientPrivilege)
          | (fs₁, none) =>
            let r := CreateJitDir env fs₁ sepDir true opts.bare filePermission
            (r.1, r.2.2)
        else
          let r := CreateJitDir env fs workingDir false opts.bare filePermission
          (r.1, r.2.2)
      match scafRes with
      | (fs₂, some e) => (fs₂, false, some e)
      | (fs₂, none) =>
        let finalJitDir := ConstructFinalJitDir workingDir sepDir opts.bare
        let fs₃ := (WriteToConfigFile env fs₂ (configEntries opts) finalJitDir).1
        match SetUpInitialBranch env fs₃ finalJitDir opts.initialBranch with
        | (fs₄, _, some e) => (fs₄, false, some e)
        | (fs₄, _, none) => (fs₄, true, none)

/-! ### The orchestrator as an explicitly staged pipeline

`initStaged` states the stage structure
`RESOLVE_DIRS → LINK_IF_SEPARATE → SCAFFOLD → WRITE_CONFIG → SET_BRANCH`
with early abort, except that the WRITE_CONFIG stage's error is discarded
(the orchestrator only logs it).  `InitializeJitRepository` is proved equal
to this pipeline below. -/

/-- RESOLVE_DIRS: resolve the separate directory (when requested) and the
working directory. -/
def resolveDirsStage (env : Env) (fs : FS) (opts : Options) (dir : Path) :
    Except JitError (Path × Path) :=
  match (if opts.separateJitDir ≠ [] then GetJitRootDir env fs opts.separateJitDir
         else .ok []) with
  | .error e => .error e
  | .ok sep =>
    match GetJitRootDir env fs dir with
    | .error e => .error e
    | .ok wk => .ok (sep, wk)

/-- LINK_IF_SEPARATE: create the symbolic link; skipped entirely when no
separate directory was requested. -/
def linkStage (env : Env) (fs : FS) (opts : Options) (sep wk : Path) :
    FS × Option JitError :=
  if opts.separateJitDir ≠ [] then
    match osSymlink env fs sep (wk ++ [JitDirName]) with
    | (fs₁, some _) => (fs₁, some .insufficientPrivilege)
    | (fs₁, none) => (fs₁, none)
  else (fs, none)

/-- SCAFFOLD: `CreateJitDir` at the storage root. -/
def scaffoldStage (env : Env) (fs : FS) (opts : Options) (sep wk : Path)
    (perm : Nat) : FS × Option JitError :=
  if opts.separateJitDir ≠ [] then
    let r := CreateJitDir env fs sep true opts.bare perm
    (r.1, r.2.2)
  else
    let r := CreateJitDir env fs wk false opts.bare perm
    (r.1, r.2.2)

/-- The staged pipeline.  Any failing stage aborts the remaining ones with
`(false, error)` — except WRITE_CONFIG, whose result's error component is
dropped on the floor. -/
def initStaged (env : Env) (fs : FS) (opts : Options) (dir : Path) :
    FS × Bool × Option JitError :=
  let perm := (parseOctal opts.perm).getD 0o755
  match resolveDirsStage env fs opts dir with
  | .error e => (fs, false, some e)
  | .ok (sep, wk) =>
    match linkStage env fs opts sep wk with
    | (fs₁, some e) => (fs₁, false, some e)
    | (fs₁, none) =>
      match scaffoldStage env fs₁ opts sep wk perm with
      | (fs₂, some e) => (fs₂, false, some e)
      | (fs₂, none) =>
        let fs₃ := (WriteToConfigFile env fs₂ (configEntries opts)
          (ConstructFinalJitDir wk sep opts.bare)).1
        match SetUpInitialBranch env fs₃ (ConstructFinalJitDir wk sep opts.bare)
            opts.initialBranch with
        | (fs₄, _, some e) => (fs₄, false, some e)
        | (fs₄, _, none) => (fs₄, true, none)

/-! ### Derived path descriptions used in theorem statements -/

/-- The working directory `InitializeJitRepository` resolves: `dir` itself
when non-empty, otherwise the process working directory. -/
def resolvedWorkingDir (env : Env) (dir : Path) : Path :=
  if dir = [] then env.cwd else dir

/-- The computed repository root of a run. -/
def finalRoot (env : Env) (opts : Options) (dir : Path) : Path :=
  ConstructFinalJitDir (resolvedWorkingDir env dir) opts.separateJitDir opts.bare

/-- The branch-reference file a run creates (`<root>/branches/<name>`). -/
def branchFilePath (env : Env) (opts : Options) (dir : Path) : Path :=
  joinComp (finalRoot env opts dir ++ [BRANCHES]) opts.initialBranch

/-! ### Concrete runs used as witnesses and counterexamples -/

/-- A benign OS: no transient failures, every directory writable. -/
def envOK : Env := { fail := fun _ _ => false, W := fun _ => true, cwd := ["cwd"] }

/-- A run in which the one syscall creating `<wk>/.jit/objects` fails
(e.g. the disk filling up at that moment). -/
def envObj : Env :=
  { fail := fun _ p => p == ["wk", JitDirName, OBJECTS], W := fun _ => true, cwd := ["cwd"] }

/-- A run in which the one syscall creating `<wk>/.jit/main` fails. -/
def envMain : Env :=
  { fail := fun _ p => p == ["wk", JitDirName, MAIN], W := fun _ => true, cwd := ["cwd"] }

/-- A run with one transient failure: the 15th syscall — which in the
standard run below is exactly `WriteToConfigFile`'s open of
`<wk>/.jit/config` — fails; every other syscall succeeds. -/
def envCfg : Env :=
  { fail := fun n p => n == 15 && p == ["wk", JitDirName, CONFIG],
    W := fun _ => true, cwd := ["cwd"] }

/-- A filesystem holding one empty, writable working directory `/wk`. -/
def fsWk : FS := { entries := [(["wk"], .dir 0o755)], clock := 0 }

/-- `/wk` already containing a `.jit` entry. -/
def fsJit : FS :=
  { entries := [(["wk"], .dir 0o755), (["wk", JitDirName], .dir 0o755)], clock := 0 }

/-- A fresh `/repo` directory, as in the repository's own config test. -/
def fsRepo : FS := { entries := [(["repo"], .dir 0o755)], clock := 0 }

/-- The standard option set: non-bare, no separate directory, branch
`main`, permission string `"0755"`. -/
def opts0 : Options :=
  { quiet := true, bare := false, separateJitDir := [], template := "/usr/template",
    objectFormat := "sha1", initialBranch := "main", perm := "0755" }

/-- The standard options with an unparsable permission string. -/
def optsBadPerm : Options := { opts0 with perm := "invalid" }

/-! ## Basic lemmas about the filesystem model -/

@[simp]
theorem FS.lookup_insert (fs : FS) (k : Path) (v : Entry) (p : Path) :
    (fs.insert k v).lookup p = if k = p then some v else fs.lookup p := rfl

@[simp]
theorem FS.lookup_tick (fs : FS) (p : Path) : fs.tick.lookup p = fs.lookup p := rfl

@[simp]
theorem FS.entries_tick (fs : FS) : fs.tick.entries = fs.entries := rfl

theorem empty_string_append (s : String) : "" ++ s = s := by
  cases s with
  | mk data => show String.mk ([] ++ data) = String.mk data; rw [List.nil_append]

/-- The branch file and the head file of one repository root are distinct
paths. -/
theorem branchPath_ne_headPath (jit : Path) (br : String) :
    joinComp (jit ++ [BRANCHES]) br ≠ jit ++ [HEAD] := by
  unfold joinComp
  split
  · intro h
    have h2 := List.append_cancel_left h
    simp [BRANCHES, HEAD] at h2
  · intro h
    have h2 : ((jit ++ [BRANCHES]) ++ [br]).length = (jit ++ [HEAD]).length := by rw [h]
    simp [List.length_append] at h2

theorem joinComp_length_ge (p : Path) (s : String) : p.length ≤ (joinComp p s).length := by
  unfold joinComp
  split
  · exact le_refl _
  · simp

/-! ## Claim theorems and their supporting lemmas -/

/-- C6: `ConstructFinalJitDir` is a pure function with the planning
tie-break of spec P5: a non-empty separate directory always wins; with no
separate directory, bare mode plans the working directory itself and
non-bare mode plans the working directory joined with `.jit`. -/
theorem constructFinalJitDir_plan (wkDir sepDir : Path) (bare : Bool) :
    (sepDir ≠ [] → ConstructFinalJitDir wkDir sepDir bare = sepDir) ∧
    ConstructFinalJitDir wkDir [] true = wkDir ∧
    ConstructFinalJitDir wkDir [] false = wkDir ++ [JitDirName] := by
  refine ⟨fun h => ?_, rfl, rfl⟩
  simp [ConstructFinalJitDir, h]

/-- Witness for C6 at concrete inputs. -/
theorem constructFinalJitDir_plan_witness :
    ConstructFinalJitDir ["w"] ["s"] true = ["s"] ∧
    ConstructFinalJitDir ["w"] [] true = ["w"] ∧
    ConstructFinalJitDir ["w"] [] false = ["w", ".jit"] :=
  ⟨(constructFinalJitDir_plan ["w"] ["s"] true).1 (by decide),
   (constructFinalJitDir_plan ["w"] [] true).2.1,
   (constructFinalJitDir_plan ["w"] [] false).2.2⟩

/-- C2 (code bug): the config descriptor is opened with
`O_APPEND|O_CREATE` only — a read-only access mode — so every entry write
fails with `EBADF` and is merely logged.  Writing the exact map of the
repository's own test against a fresh directory returns `(true, nil)` yet
leaves the config file completely empty: no `KEY=VALUE` line is ever
appended. -/
theorem writeToConfigFile_leaves_config_empty :
    (WriteToConfigFile envOK fsRepo [("TEMPLATE", "/usr/template"), ("BRANCH", "main")]
      ["repo"]).2 = (true, none) ∧
    ((WriteToConfigFile envOK fsRepo [("TEMPLATE", "/usr/template"), ("BRANCH", "main")]
      ["repo"]).1).lookup ["repo", CONFIG] = some (.file "" DefaultFilePerm) :=
  ⟨rfl, rfl⟩

/-- C4 (code bug): when creating the very first layout entry
(`<wk>/.jit/main`) fails, `CreateJitDir` stops (no later entry such as
`head` is created) but still returns `(true, nil)`: the failure is never
reported to the caller, contradicting the function's own documentation. -/
theorem createJitDir_swallows_creation_failure :
    (CreateJitDir envMain fsWk ["wk"] false false 0o755).2 = (true, none) ∧
    ((CreateJitDir envMain fsWk ["wk"] false false 0o755).1).lookup
      ["wk", JitDirName, MAIN] = none ∧
    ((CreateJitDir envMain fsWk ["wk"] false false 0o755).1).lookup
      ["wk", JitDirName, HEAD] = none :=
  ⟨rfl, rfl, rfl⟩

/-- C1 (code bug): a run in which creating `<wk>/.jit/objects` fails still
makes `InitializeJitRepository` return `(true, nil)` although the `objects`
layout entry does not exist at the computed root — the scaffold failure is
logged and swallowed. -/
theorem initialize_true_with_missing_objects :
    (InitializeJitRepository envObj fsWk opts0 ["wk"]).2 = (true, none) ∧
    ((InitializeJitRepository envObj fsWk opts0 ["wk"]).1).lookup
      ["wk", JitDirName, OBJECTS] = none :=
  ⟨rfl, rfl⟩

/-- C8 (code bug): an unparsable permission string does not produce an
`InvalidArgument` error: `ParseUint` fails, the code silently falls back to
`0755`, the run mutates the filesystem and reports success, the metadata
root being created with the fallback mode. -/
theorem invalid_perm_silently_falls_back :
    parseOctal "invalid" = none ∧
    (InitializeJitRepository envOK fsWk optsBadPerm ["wk"]).2 = (true, none) ∧
    ((InitializeJitRepository envOK fsWk optsBadPerm ["wk"]).1).lookup
      ["wk", JitDirName] = some (.dir 0o755) :=
  ⟨rfl, rfl, rfl⟩

/-- C9 counterexample: scaffolding with user permission `0700` creates the
`logs` layout subdirectory with mode `0644` (`util.DefaultFilePerm`), not
with the user-supplied permission, refuting the claim that every directory
created during scaffolding uses the parsed `directoryPermission`. -/
theorem scaffold_subdir_ignores_user_perm :
    ((CreateJitDir envOK fsWk ["wk"] false false 0o700).1).lookup
      ["wk", JitDirName, LOGS] = some (.dir 0o644) ∧
    ¬ ((CreateJitDir envOK fsWk ["wk"] false false 0o700).1).lookup
      ["wk", JitDirName, LOGS] = some (.dir 0o700) ∧
    (CreateJitDir envOK fsWk ["wk"] false false 0o700).2 = (true, none) :=
  ⟨rfl, by decide, rfl⟩

/-- C9 amended: in a successful fresh scaffold, the metadata root `.jit` is
created with the user-supplied permission, while every layout subdirectory
(`logs`, `info`, `branches`, `snapshots`, `objects`) is created with the
fixed default mode `0644`. -/
theorem createJitDir_root_perm_subdirs_default (perm : Nat) :
    (CreateJitDir envOK fsWk ["wk"] false false perm).2 = (true, none) ∧
    ((CreateJitDir envOK fsWk ["wk"] false false perm).1).lookup
      ["wk", JitDirName] = some (.dir perm) ∧
    ((CreateJitDir envOK fsWk ["wk"] false false perm).1).lookup
      ["wk", JitDirName, LOGS] = some (.dir DefaultFilePerm) ∧
    ((CreateJitDir envOK fsWk ["wk"] false false perm).1).lookup
      ["wk", JitDirName, INFO] = some (.dir DefaultFilePerm) ∧
    ((CreateJitDir envOK fsWk ["wk"] false false perm).1).lookup
      ["wk", JitDirName, BRANCHES] = some (.dir DefaultFilePerm) ∧
    ((CreateJitDir envOK fsWk ["wk"] false false perm).1).lookup
      ["wk", JitDirName, SNAPSHOTS] = some (.dir DefaultFilePerm) ∧
    ((CreateJitDir envOK fsWk ["wk"] false false perm).1).lookup
      ["wk", JitDirName, OBJECTS] = some (.dir DefaultFilePerm) :=
  ⟨rfl, rfl, rfl, rfl, rfl, rfl, rfl⟩

/-- C10: whatever makes the guard `os.Mkdir` of the metadata directory
fail — pre-existence, a missing or unwritable parent, or a transient
failure — `CreateJitDir` reports the `AlreadyInitialized` error for the
working directory; no other error is ever returned by it in
non-bare/non-separate mode. -/
theorem createJitDir_guard_error (env : Env) (fs : FS) (wkDir : Path) (perm : Nat)
    (fs' : FS) (ok : Bool) (e : JitError)
    (h : CreateJitDir env fs wkDir false false perm = (fs', ok, some e)) :
    e = .alreadyInitialized wkDir ∧ ok = false := by
  unfold CreateJitDir at h
  simp only [Bool.not_false, Bool.and_self, if_true] at h
  rcases hm : osMkdir env fs (wkDir ++ [JitDirName]) perm with ⟨fs'', r⟩
  rw [hm] at h
  rcases r with _ | e'
  · simp at h
  · simp only [Prod.mk.injEq, Option.some.injEq] at h
    exact ⟨h.2.2.symm, h.2.1.symm⟩

/-- Witness for C10 at a concrete input: a pre-existing `.jit` directory. -/
theorem createJitDir_guard_error_witness :
    JitError.alreadyInitialized ["wk"] = .alreadyInitialized ["wk"] ∧ false = false :=
  createJitDir_guard_error envOK fsJit ["wk"] 0o755 fsJit.tick false
    (.alreadyInitialized ["wk"]) rfl

/-- C3 counterexample: in the `envCfg` run the WRITE_CONFIG stage itself
fails — `WriteToConfigFile`, applied to the exact state the scaffold stage
produced, returns `(false, <error>)` because its open of the config file
fails — and yet `InitializeJitRepository` returns `(true, nil)`: a failing
stage neither aborts the remaining stages nor prevents overall success. -/
theorem writeConfig_failure_does_not_abort :
    (InitializeJitRepository envCfg fsWk opts0 ["wk"]).2 = (true, none) ∧
    (WriteToConfigFile envCfg (scaffoldStage envCfg fsWk opts0 [] ["wk"] 0o755).1
      (configEntries opts0) (ConstructFinalJitDir ["wk"] [] false)).2
      = (false, some .ioError) :=
  ⟨rfl, rfl⟩

/-- C3 amended: the orchestrator equals the staged pipeline
`RESOLVE_DIRS → LINK_IF_SEPARATE → SCAFFOLD → WRITE_CONFIG → SET_BRANCH`
in which a failure of RESOLVE_DIRS, LINK_IF_SEPARATE, SCAFFOLD or
SET_BRANCH returns `(false, error)` and aborts the remaining stages, while
the WRITE_CONFIG stage's error is discarded, so it can neither abort the
pipeline nor affect the returned value. -/
theorem initialize_eq_staged (env : Env) (fs : FS) (opts : Options) (dir : Path) :
    InitializeJitRepository env fs opts dir = initStaged env fs opts dir := by
  unfold InitializeJitRepository initStaged resolveDirsStage linkStage scaffoldStage
  by_cases hsep : opts.separateJitDir = []
  · simp only [hsep, ne_eq, not_true_eq_false, if_false, ite_false]
    rcases h2 : GetJitRootDir env fs dir with e | wk <;> simp only [h2]
  · simp only [hsep, ne_eq, not_false_eq_true, if_true, ite_true]
    rcases h1 : GetJitRootDir env fs opts.separateJitDir with e | sep <;> simp only [h1]
    rcases h2 : GetJitRootDir env fs dir with e | wk <;> simp only [h2]
    rcases h4 : osSymlink env fs sep (wk ++ [JitDirName]) with ⟨fs₁, el⟩
    rcases el with _ | el <;> simp only [h4]

/-! ## Inversion and preservation lemmas for the OS primitives -/

theorem osOpenFile_ok_fd (env : Env) (fs : FS) (p : Path) (w c t : Bool) (perm : Nat)
    (fs' : FS) (fd : Fd) (h : osOpenFile env fs p w c t perm = (fs', .ok fd)) :
    fd = ⟨p, w⟩ := by
  unfold osOpenFile at h
  repeat' split at h
  all_goals injection h with h1 h2
  all_goals first
    | exact Except.noConfusion h2
    | (injection h2 with h3; exact h3.symm)

theorem osOpenFile_lookup_ne (env : Env) (fs : FS) (p : Path) (w c t : Bool) (perm : Nat)
    (fs' : FS) (r : Except JitError Fd) (q : Path)
    (h : osOpenFile env fs p w c t perm = (fs', r)) (hq : q ≠ p) :
    fs'.lookup q = fs.lookup q := by
  unfold osOpenFile at h
  repeat' split at h
  all_goals (injection h with h1 h2; subst h1; simp [Ne.symm hq])

theorem osOpenFile_ok_lookup (env : Env) (fs : FS) (p : Path) (w c t : Bool) (perm : Nat)
    (fs' : FS) (fd : Fd) (h : osOpenFile env fs p w c t perm = (fs', .ok fd)) :
    ∃ cc m, fs'.lookup p = some (.file cc m) ∧ (t = true → cc = "") := by
  unfold osOpenFile at h
  repeat' split at h
  all_goals injection h with h1 h2
  all_goals first
    | exact Except.noConfusion h2
    | subst h1
  · rename_i content m heq htr
    exact ⟨"", m, by simp, fun _ => rfl⟩
  · rename_i content m heq hnt
    have ht : t = false := by
      cases t
      · rfl
      · exact absurd rfl hnt
    exact ⟨content, m, by simp [heq], by simp [ht]⟩
  · exact ⟨"", perm, by simp, fun _ => rfl⟩

theorem fdWrite_lookup_ne (env : Env) (fs : FS) (fd : Fd) (s : String)
    (fs' : FS) (r : Option JitError) (q : Path)
    (h : fdWrite env fs fd s = (fs', r)) (hq : q ≠ fd.path) :
    fs'.lookup q = fs.lookup q := by
  unfold fdWrite at h
  repeat' split at h
  all_goals (injection h with h1 h2; subst h1; simp [Ne.symm hq])

theorem fdWrite_ok_lookup (env : Env) (fs : FS) (fd : Fd) (s : String) (fs' : FS)
    (h : fdWrite env fs fd s = (fs', none)) :
    ∃ cpre m, fs.lookup fd.path = some (.file cpre m) ∧
      fs'.lookup fd.path = some (.file (cpre ++ s) m) := by
  unfold fdWrite at h
  repeat' split at h
  all_goals injection h with h1 h2
  all_goals first
    | exact Option.noConfusion h2
    | subst h1
  rename_i heq
  exact ⟨_, _, heq, by simp⟩

/-- Success shape of `SetUpInitialBranch`: the branch file exists and the
head file's entire content is the branch file's rendered path. -/
theorem setUpInitialBranch_ok (env : Env) (fs : FS) (jit : Path) (br : String)
    (fs' : FS) (b : Bool) (h : SetUpInitialBranch env fs jit br = (fs', b, none)) :
    (∃ c m, fs'.lookup (joinComp (jit ++ [BRANCHES]) br) = some (.file c m)) ∧
    (∃ m, fs'.lookup (jit ++ [HEAD]) =
      some (.file (pathStr (joinComp (jit ++ [BRANCHES]) br)) m)) := by
  simp only [SetUpInitialBranch] at h
  split at h
  · simp at h
  · rename_i fs₁ fd₁ h1
    split at h
    · simp at h
    · rename_i fs₂ hf h2
      have hfd : hf = ⟨jit ++ [HEAD], true⟩ := osOpenFile_ok_fd _ _ _ _ _ _ _ _ _ h2
      subst hfd
      split at h
      · simp at h
      · rename_i fs₃ h3
        have hfs : fs₃ = fs' := by
          simp only [Prod.mk.injEq] at h
          exact h.1
        subst hfs
        have hne := branchPath_ne_headPath jit br
        constructor
        · obtain ⟨c, m, hc, -⟩ := osOpenFile_ok_lookup _ _ _ _ _ _ _ _ _ h1
          refine ⟨c, m, ?_⟩
          rw [fdWrite_lookup_ne _ _ _ _ _ _ _ h3 hne,
            osOpenFile_lookup_ne _ _ _ _ _ _ _ _ _ _ h2 hne]
          exact hc
        · obtain ⟨cc, m2, hh2, hcc⟩ := osOpenFile_ok_lookup _ _ _ _ _ _ _ _ _ h2
          have hcc' : cc = "" := hcc rfl
          subst hcc'
          obtain ⟨cpre, m3, hpre, hpost⟩ := fdWrite_ok_lookup _ _ _ _ _ h3
          rw [hh2] at hpre
          have hc1 : cpre = "" := by
            injection hpre with hp
            injection hp with hp1 hp2
            exact hp1.symm
          have hm : m3 = m2 := by
            injection hpre with hp
            injection hp with hp1 hp2
            exact hp2.symm
          subst hc1
          subst hm
          rw [empty_string_append] at hpost
          exact ⟨_, hpost⟩

theorem getJitRootDir_ok (env : Env) (fs : FS) (d r : Path)
    (h : GetJitRootDir env fs d = .ok r) : r = resolvedWorkingDir env d := by
  unfold GetJitRootDir at h
  unfold resolvedWorkingDir
  split at h
  · rename_i hd
    split at h
    · exact Except.noConfusion h
    · split at h
      · exact Except.noConfusion h
      · injection h with h1
        rw [if_neg hd]
        exact h1.symm
  · rename_i hd
    injection h with h1
    rw [if_pos (by simpa using hd)]
    exact h1.symm

theorem getJitRootDir_ok_checks (env : Env) (fs : FS) (d r : Path) (hd : d ≠ [])
    (h : GetJitRootDir env fs d = .ok r) :
    ValidateDirPath fs d = none ∧ CheckWritePermission env fs d = none ∧ r = d := by
  unfold GetJitRootDir at h
  rw [if_pos hd] at h
  split at h
  · exact Except.noConfusion h
  · rename_i hv
    split at h
    · exact Except.noConfusion h
    · rename_i hc
      injection h with h1
      exact ⟨hv, hc, h1.symm⟩

theorem sepRes_ok (env : Env) (fs : FS) (sd sepDir : Path)
    (h : (if sd ≠ [] then GetJitRootDir env fs sd else .ok []) = .ok sepDir) :
    sepDir = sd := by
  split at h
  · rename_i hne
    have hr := getJitRootDir_ok env fs sd sepDir h
    unfold resolvedWorkingDir at hr
    rw [if_neg hne] at hr
    exact hr
  · rename_i hne
    injection h with h1
    rw [show sd = [] from by simpa using hne]
    exact h1.symm

/-- C5: after every successful run of `InitializeJitRepository` with
initial branch `b`, the branch file `branches/b` exists under the computed
root, and the head file's entire content is exactly the rendered path
`<root>/branches/b` — the truncating open of `head` has overwritten any
prior content with this path. -/
theorem initialize_success_sets_head (env : Env) (fs : FS) (opts : Options)
    (dir : Path) (fs' : FS)
    (h : InitializeJitRepository env fs opts dir = (fs', true, none)) :
    (∃ c m, fs'.lookup (branchFilePath env opts dir) = some (.file c m)) ∧
    (∃ m, fs'.lookup (finalRoot env opts dir ++ [HEAD]) =
      some (.file (pathStr (branchFilePath env opts dir)) m)) := by
  unfold branchFilePath finalRoot
  simp only [InitializeJitRepository] at h
  split at h
  · simp at h
  · rename_i sepDir hsepRes
    split at h
    · simp at h
    · rename_i workingDir hwk
      have hsd := sepRes_ok env fs opts.separateJitDir sepDir hsepRes
      have hwd := getJitRootDir_ok env fs dir workingDir hwk
      subst hsd
      subst hwd
      split at h
      · simp at h
      · rename_i fs₂ hscaf
        split at h
        · simp at h
        · rename_i fs₄ b₄ hsb
          have hfs : fs₄ = fs' := by
            simp only [Prod.mk.injEq] at h
            exact h.1
          subst hfs
          exact setUpInitialBranch_ok _ _ _ _ _ _ hsb

/-- Witness for C5: the standard successful run against a fresh `/wk`. -/
theorem initialize_success_sets_head_witness :
    (∃ c m, ((InitializeJitRepository envOK fsWk opts0 ["wk"]).1).lookup
      (branchFilePath envOK opts0 ["wk"]) = some (.file c m)) ∧
    (∃ m, ((InitializeJitRepository envOK fsWk opts0 ["wk"]).1).lookup
      (finalRoot envOK opts0 ["wk"] ++ [HEAD]) =
      some (.file (pathStr (branchFilePath envOK opts0 ["wk"])) m)) :=
  initialize_success_sets_head envOK fsWk opts0 ["wk"]
    (InitializeJitRepository envOK fsWk opts0 ["wk"]).1 rfl

/-! ## Preservation lemmas: the first run does not disturb entries at or
above the working directory -/

theorem osMkdirAllGo_preserves (env : Env) (mode : Nat) (fuel : Nat) :
    ∀ (fs : FS) (p : Path) (fs' : FS) (r : Option JitError) (q : Path) (e : Entry),
      osMkdirAllGo env mode fuel fs p = (fs', r) → fs.lookup q = some e →
      fs'.lookup q = some e := by
  induction fuel with
  | zero =>
    intro fs p fs' r q e h hq
    injection h with h1 h2
    subst h1
    simpa using hq
  | succ n ih =>
    intro fs p fs' r q e h hq
    simp only [osMkdirAllGo] at h
    split at h
    · injection h with h1 h2
      subst h1
      simpa using hq
    · injection h with h1 h2
      subst h1
      simpa using hq
    · rename_i heqp
      split at h
      · injection h with h1 h2
        subst h1
        simpa using hq
      · split at h
        · rename_i fs₂ e₂ hrec
          injection h with h1 h2
          subst h1
          exact ih fs p.dropLast fs₂ (some e₂) q e hrec hq
        · rename_i fs₂ hrec
          have hq2 := ih fs p.dropLast fs₂ none q e hrec hq
          split at h
          · injection h with h1 h2
            subst h1
            simpa using hq2
          · split at h
            · injection h with h1 h2
              subst h1
              have hpq : p ≠ q := by
                intro hh
                rw [hh] at heqp
                rw [heqp] at hq
                exact Option.noConfusion hq
              simpa [hpq] using hq2
            · injection h with h1 h2
              subst h1
              simpa using hq2

theorem scaffoldEntries_preserves (env : Env) (root : Path) (L : List (String × File)) :
    ∀ (fs : FS) (q : Path) (e : Entry), fs.lookup q = some e → q.length ≤ root.length →
      (scaffoldEntries env fs root L).lookup q = some e := by
  induction L with
  | nil =>
    intro fs q e hq _
    exact hq
  | cons kv rest ih =>
    intro fs q e hq hlen
    rcases kv with ⟨k, kind⟩
    have hqne : q ≠ root ++ [k] := by
      intro hqq
      rw [hqq] at hlen
      simp at hlen
    cases kind
    · simp only [scaffoldEntries]
      rcases hc : osCreate env fs (root ++ [k]) with ⟨fs₂, r₂⟩
      have hpres : fs₂.lookup q = fs.lookup q :=
        osOpenFile_lookup_ne env fs (root ++ [k]) true true true 0o666 fs₂ r₂ q hc hqne
      rcases r₂ with e₂ | fd₂
      · rw [hpres]
        exact hq
      · exact ih fs₂ q e (by rw [hpres]; exact hq) hlen
    · simp only [scaffoldEntries]
      rcases hm : osMkdirAll env fs (root ++ [k]) DefaultFilePerm with ⟨fs₂, r₂⟩
      have hpres : fs₂.lookup q = some e :=
        osMkdirAllGo_preserves env DefaultFilePerm ((root ++ [k]).length + 1) fs
          (root ++ [k]) fs₂ r₂ q e hm hq
      rcases r₂ with _ | e₂
      · exact ih fs₂ q e hpres hlen
      · exact hpres

theorem writeConfigEntries_lookup_ne (env : Env) (fd : Fd) (L : List (String × String)) :
    ∀ (fs : FS) (q : Path), q ≠ fd.path →
      (writeConfigEntries env fs fd L).lookup q = fs.lookup q := by
  induction L with
  | nil =>
    intro fs q _
    rfl
  | cons kv rest ih =>
    intro fs q hq
    rcases kv with ⟨k, v⟩
    simp only [writeConfigEntries]
    rw [ih _ q hq]
    exact fdWrite_lookup_ne env fs fd (k ++ "=" ++ v ++ "\n")
      (fdWrite env fs fd (k ++ "=" ++ v ++ "\n")).1
      (fdWrite env fs fd (k ++ "=" ++ v ++ "\n")).2 q rfl hq

theorem writeToConfigFile_lookup_short (env : Env) (fs : FS)
    (cfg : List (String × String)) (jit : Path) (q : Path)
    (hlen : q.length ≤ jit.length) :
    ((WriteToConfigFile env fs cfg jit).1).lookup q = fs.lookup q := by
  have hqne : q ≠ jit ++ [CONFIG] := by
    intro hqq
    rw [hqq] at hlen
    simp at hlen
  unfold WriteToConfigFile
  rcases ho : osOpenFile env fs (jit ++ [CONFIG]) false true false DefaultFilePerm
    with ⟨fs₁, r₁⟩
  have hpres : fs₁.lookup q = fs.lookup q :=
    osOpenFile_lookup_ne env fs (jit ++ [CONFIG]) false true false DefaultFilePerm
      fs₁ r₁ q ho hqne
  rcases r₁ with e₁ | fd₁
  · exact hpres
  · have hfd := osOpenFile_ok_fd _ _ _ _ _ _ _ _ _ ho
    subst hfd
    rw [writeConfigEntries_lookup_ne env _ cfg fs₁ q hqne]
    exact hpres

theorem setUpInitialBranch_lookup_short (env : Env) (fs : FS) (jit : Path) (br : String)
    (fs' : FS) (b : Bool) (r : Option JitError) (q : Path)
    (h : SetUpInitialBranch env fs jit br = (fs', b, r)) (hlen : q.length ≤ jit.length) :
    fs'.lookup q = fs.lookup q := by
  have hqb : q ≠ joinComp (jit ++ [BRANCHES]) br := by
    intro hqq
    have h2 := joinComp_length_ge (jit ++ [BRANCHES]) br
    rw [← hqq] at h2
    simp at h2
    omega
  have hqh : q ≠ jit ++ [HEAD] := by
    intro hqq
    rw [hqq] at hlen
    simp at hlen
  simp only [SetUpInitialBranch] at h
  split at h
  · rename_i fs₁ e₁ h1
    injection h with h1' h2'
    subst h1'
    exact osOpenFile_lookup_ne _ _ _ _ _ _ _ _ _ _ h1 hqb
  · rename_i fs₁ fd₁ h1
    split at h
    · rename_i fs₂ e₂ h2
      injection h with h1' h2'
      subst h1'
      rw [osOpenFile_lookup_ne _ _ _ _ _ _ _ _ _ _ h2 hqh]
      exact osOpenFile_lookup_ne _ _ _ _ _ _ _ _ _ _ h1 hqb
    · rename_i fs₂ hf h2
      have hfd := osOpenFile_ok_fd _ _ _ _ _ _ _ _ _ h2
      subst hfd
      split at h
      · rename_i fs₃ e₃ h3
        injection h with h1' h2'
        subst h1'
        rw [fdWrite_lookup_ne _ _ _ _ _ _ _ h3 hqh,
          osOpenFile_lookup_ne _ _ _ _ _ _ _ _ _ _ h2 hqh]
        exact osOpenFile_lookup_ne _ _ _ _ _ _ _ _ _ _ h1 hqb
      · rename_i fs₃ h3
        injection h with h1' h2'
        subst h1'
        rw [fdWrite_lookup_ne _ _ _ _ _ _ _ h3 hqh,
          osOpenFile_lookup_ne _ _ _ _ _ _ _ _ _ _ h2 hqh]
        exact osOpenFile_lookup_ne _ _ _ _ _ _ _ _ _ _ h1 hqb

theorem osMkdir_ok (env : Env) (fs : FS) (p : Path) (mode : Nat) (fs' : FS)
    (h : osMkdir env fs p mode = (fs', none)) :
    fs' = (fs.insert p (.dir mode)).tick ∧ fs.lookup p = none := by
  unfold osMkdir at h
  repeat' split at h
  all_goals injection h with h1 h2
  all_goals first
    | exact Option.noConfusion h2
    | (subst h1; rename_i heqp hcond; exact ⟨rfl, heqp⟩)

theorem osMkdir_exists_err (env : Env) (fs : FS) (p : Path) (mode : Nat) (e0 : Entry)
    (hp : fs.lookup p = some e0) :
    osMkdir env fs p mode = (fs.tick, some .ioError) := by
  unfold osMkdir
  split
  · rfl
  · rw [hp]

theorem createJitDir_already (env : Env) (fs : FS) (wk : Path) (perm : Nat) (e0 : Entry)
    (hp : fs.lookup (wk ++ [JitDirName]) = some e0) :
    CreateJitDir env fs wk false false perm =
      (fs.tick, false, some (.alreadyInitialized wk)) := by
  unfold CreateJitDir
  simp only [Bool.not_false, Bool.and_self, if_true]
  rw [osMkdir_exists_err env fs _ perm e0 hp]

theorem createJitDir_guard_split (env : Env) (fs : FS) (wk : Path) (perm : Nat) :
    (∃ fsA e, osMkdir env fs (wk ++ [JitDirName]) perm = (fsA, some e) ∧
      CreateJitDir env fs wk false false perm =
        (fsA, false, some (.alreadyInitialized wk))) ∨
    (∃ fsA, osMkdir env fs (wk ++ [JitDirName]) perm = (fsA, none) ∧
      CreateJitDir env fs wk false false perm =
        (scaffoldEntries env fsA (wk ++ [JitDirName]) jitFileSystem, true, none)) := by
  rcases hg : osMkdir env fs (wk ++ [JitDirName]) perm with ⟨fsA, rg⟩
  rcases rg with _ | e
  · right
    refine ⟨fsA, rfl, ?_⟩
    unfold CreateJitDir
    simp only [Bool.not_false, Bool.and_self, if_true]
    rw [hg]
  · left
    refine ⟨fsA, e, rfl, ?_⟩
    unfold CreateJitDir
    simp only [Bool.not_false, Bool.and_self, if_true]
    rw [hg]

theorem checkWritePermission_none (env : Env) (fs : FS) (p : Path)
    (h : CheckWritePermission env fs p = none) :
    fs.isDirAt p = true ∧ env.W p = true := by
  unfold CheckWritePermission at h
  split at h
  · rename_i hcond
    simp only [Bool.and_eq_true] at hcond
    exact hcond
  · exact Option.noConfusion h

/-- C7: running initialization twice, non-bare and without a separate
directory, against the same working directory: after a successful first
run, the second run fails with the `AlreadyInitialized` error for the
working directory (because the `.jit` metadata directory already exists)
and leaves the filesystem entries produced by the first run untouched. -/
theorem initialize_twice_already_initialized (env : Env) (fs : FS) (opts : Options)
    (dir : Path) (fs₁ : FS) (m : Nat)
    (hsep : opts.separateJitDir = []) (hbare : opts.bare = false)
    (hdir : dir ≠ []) (hwd : fs.lookup dir = some (.dir m))
    (h : InitializeJitRepository env fs opts dir = (fs₁, true, none)) :
    InitializeJitRepository env fs₁ opts dir =
      (fs₁.tick, false, some (.alreadyInitialized dir)) ∧
    fs₁.tick.entries = fs₁.entries := by
  refine ⟨?_, rfl⟩
  simp only [InitializeJitRepository, hsep, hbare, ne_eq, not_true_eq_false, if_false,
    ite_false] at h ⊢
  split at h
  · simp at h
  · rename_i workingDir hwk
    obtain ⟨hval, hcw, hwkd⟩ := getJitRootDir_ok_checks env fs dir workingDir hdir hwk
    subst workingDir
    have hfinal : ConstructFinalJitDir dir [] false = dir ++ [JitDirName] := rfl
    rw [hfinal] at h
    rcases createJitDir_guard_split env fs dir ((parseOctal opts.perm).getD 0o755) with
      ⟨fsA, e, hg, hC⟩ | ⟨fsA, hg, hC⟩
    · rw [hC] at h
      simp at h
    · rw [hC] at h
      split at h
      · rename_i fs₂ e₂ hpair
        injection hpair with hp1 hp2
        exact Option.noConfusion hp2
      · rename_i fs₂ hpair
        injection hpair with hp1 hp2
        subst hp1
        split at h
        · simp at h
        · rename_i fs₄ b₄ hsb
          have hfs4 : fs₄ = fs₁ := by
            simp only [Prod.mk.injEq] at h
            exact h.1
          subst fs₄
          obtain ⟨hfsA, hjnone⟩ := osMkdir_ok env fs (dir ++ [JitDirName]) _ fsA hg
          have hne_jd : dir ++ [JitDirName] ≠ dir := by
            intro hh
            have hlen := congrArg List.length hh
            simp at hlen
          have hlA_dir : fsA.lookup dir = some (.dir m) := by
            subst hfsA
            simp [hne_jd]
            exact hwd
          have hlA_jit : fsA.lookup (dir ++ [JitDirName]) =
              some (.dir ((parseOctal opts.perm).getD 0o755)) := by
            subst hfsA
            simp
          have hl2_dir := scaffoldEntries_preserves env (dir ++ [JitDirName]) jitFileSystem
            fsA dir (.dir m) hlA_dir (by simp)
          have hl2_jit := scaffoldEntries_preserves env (dir ++ [JitDirName]) jitFileSystem
            fsA (dir ++ [JitDirName]) (.dir ((parseOctal opts.perm).getD 0o755)) hlA_jit
            (le_refl _)
          have hl3_dir : ((WriteToConfigFile env
              (scaffoldEntries env fsA (dir ++ [JitDirName]) jitFileSystem)
              (configEntries opts) (dir ++ [JitDirName])).1).lookup dir = some (.dir m) := by
            rw [writeToConfigFile_lookup_short env _ _ _ dir (by simp)]
            exact hl2_dir
          have hl3_jit : ((WriteToConfigFile env
              (scaffoldEntries env fsA (dir ++ [JitDirName]) jitFileSystem)
              (configEntries opts) (dir ++ [JitDirName])).1).lookup (dir ++ [JitDirName]) =
              some (.dir ((parseOctal opts.perm).getD 0o755)) := by
            rw [writeToConfigFile_lookup_short env _ _ _ _ (le_refl _)]
            exact hl2_jit
          have hl1_dir : fs₁.lookup dir = some (.dir m) := by
            rw [setUpInitialBranch_lookup_short env _ (dir ++ [JitDirName])
              opts.initialBranch fs₁ b₄ none dir hsb (by simp)]
            exact hl3_dir
          have hl1_jit : fs₁.lookup (dir ++ [JitDirName]) =
              some (.dir ((parseOctal opts.perm).getD 0o755)) := by
            rw [setUpInitialBranch_lookup_short env _ (dir ++ [JitDirName])
              opts.initialBranch fs₁ b₄ none (dir ++ [JitDirName]) hsb (le_refl _)]
            exact hl3_jit
          have hv2 : ValidateDirPath fs₁ dir = none := by
            unfold ValidateDirPath
            rw [hl1_dir]
          obtain ⟨hisd, hWdir⟩ := checkWritePermission_none env fs dir hcw
          have hd1 : fs₁.isDirAt dir = true := by
            unfold FS.isDirAt
            rw [hl1_dir]
            simp
          have hc2 : CheckWritePermission env fs₁ dir = none := by
            unfold CheckWritePermission
            rw [hd1, hWdir]
            rfl
          have hroot2 : GetJitRootDir env fs₁ dir = .ok dir := by
            unfold GetJitRootDir
            rw [if_pos hdir, hv2, hc2]
          simp only [hroot2,
            createJitDir_already env fs₁ dir ((parseOctal opts.perm).getD 0o755)
              (.dir ((parseOctal opts.perm).getD 0o755)) hl1_jit]

/-- Witness for C7: the standard run against a fresh `/wk`, then again. -/
theorem initialize_twice_already_initialized_witness :
    InitializeJitRepository envOK (InitializeJitRepository envOK fsWk opts0 ["wk"]).1
      opts0 ["wk"] =
      ((InitializeJitRepository envOK fsWk opts0 ["wk"]).1.tick, false,
        some (.alreadyInitialized ["wk"])) ∧
    (InitializeJitRepository envOK fsWk opts0 ["wk"]).1.tick.entries =
      (InitializeJitRepository envOK fsWk opts0 ["wk"]).1.entries :=
  initialize_twice_already_initialized envOK fsWk opts0 ["wk"]
    (InitializeJitRepository envOK fsWk opts0 ["wk"]).1 0o755 rfl rfl (by decide) rfl rfl

end Jit
